import Mathlib

/-!
Shallow embedding of the two sample scripts in this repository:
`src/main.py` (one-shot CLI) and `src/mainchat.py` (chat handler).
Both scripts share the same control flow: read configuration from
environment variables, configure an MCP tool's authentication headers,
create an agent/thread/message/run, then poll the run's status,
auto-approving pending MCP tool calls, and finally report the outcome.
Console prints that carry no control flow (status echoes, step listings)
are modelled only where a claim refers to them.
-/

namespace McpAgent

/-- The run statuses on which the poll loop keeps iterating
(`main.py` line 108, `mainchat.py` line 127). -/
def pollStates : List String := ["queued", "in_progress", "requires_action"]

/-- A pending tool call delivered under `requires_action`.  The scripts
only distinguish whether it is an instance of `RequiredMcpToolCall`
(`isinstance` checks at `main.py` 121 / `mainchat.py` 140) and read its
`id` field. -/
inductive ToolCall where
  | mcp (id : String)
  | other (id : String)
deriving DecidableEq, Repr

def ToolCall.id : ToolCall → String
  | .mcp i => i
  | .other i => i

def ToolCall.isMcp : ToolCall → Bool
  | .mcp _ => true
  | .other _ => false

/-- The `run.required_action` field: either a `SubmitToolApprovalAction`
carrying a tool-call list, some other action type, or absent. -/
inductive RequiredAction where
  | submitToolApproval (tool_calls : List ToolCall)
  | otherAction
  | noAction
deriving DecidableEq, Repr

/-- The approval record built at `main.py` 124-130 / `mainchat.py` 142-148. -/
structure ToolApproval where
  tool_call_id : String
  approve : Bool
  headers : List (String × String)
deriving DecidableEq, Repr

/-- The fields of a run snapshot that the scripts read. -/
structure Run where
  status : String
  required_action : RequiredAction
  last_error : Option String
deriving DecidableEq, Repr

/-- How Python prints `run.last_error` inside an f-string:
the text itself, or `None` when absent. -/
def lastErrorStr (r : Run) : String :=
  match r.last_error with
  | some e => e
  | none => "None"

/-- Observable actions of the scripts: SDK calls and user-facing reports,
in program order. -/
inductive Event where
  | createClient
  | setAuthHeader
  | warnNoToken
  | createAgent
  | createThread
  | createMessage
  | setApprovalMode
  | createRun
  | getRun
  | cancelRun
  | logApproveError (id : String)
  | submitApprovals (approvals : List ToolApproval)
  | reportCompleted (status : String)
  | reportFailed (msg : String)
deriving DecidableEq, Repr

def Event.isCancel : Event → Bool
  | .cancelRun => true
  | _ => false

def Event.isSubmit : Event → Bool
  | .submitApprovals _ => true
  | _ => false

def Event.isCreateRun : Event → Bool
  | .createRun => true
  | _ => false

/-- The events the poll loop itself can emit (fetches, cancellation,
per-call error logs, batch submissions). -/
def Event.isLoopEvent : Event → Bool
  | .getRun => true
  | .cancelRun => true
  | .logApproveError _ => true
  | .submitApprovals _ => true
  | _ => false

/-! ### Environment-variable handling (`main.py` 39-49, `mainchat.py` 52-62) -/

/-- Process environment: a map from variable name to its value, `none`
when unset. -/
structure Env where
  get : String → Option String

/-- Python truthiness of `os.environ.get(var)`: `None` and the empty
string are falsy. -/
def truthy : Option String → Bool
  | none => false
  | some s => !s.isEmpty

def required_vars : List String :=
  ["PROJECT_ENDPOINT", "MODEL_DEPLOYMENT_NAME", "MCP_SERVER_URL", "MCP_SERVER_LABEL"]

/-- `[var for var in required_vars if not os.environ.get(var)]`. -/
def missing_vars (env : Env) : List String :=
  required_vars.filter (fun v => !truthy (env.get v))

/-- Python's `", ".join`. -/
def joinComma : List String → String
  | [] => ""
  | [x] => x
  | x :: xs => x ++ ", " ++ joinComma xs

/-- The `ValueError` message raised when required variables are missing. -/
def missingVarsMessage (env : Env) : String :=
  "Missing required environment variables: " ++ joinComma (missing_vars env)

/-- Headers configured on the MCP tool (`main.py` 64-67,
`mainchat.py` 77-80): an `Authorization: Bearer <token>` entry when the
token is truthy, nothing otherwise. -/
def mcpHeaders (token : Option String) : List (String × String) :=
  if truthy token then [("Authorization", "Bearer " ++ token.getD "")] else []

/-! ### The tool-approval iteration body
(`main.py` 112-138, `mainchat.py` 131-157) -/

/-- The `for tool_call in tool_calls` loop: for each tool call that is a
`RequiredMcpToolCall`, construct a `ToolApproval` inside `try/except`;
`fails id = true` models the construction raising for that call, in which
case the error is printed (logged) and the call contributes no approval.
Returns the accumulated approvals and the log events, in order. -/
def approveStep (headers : List (String × String)) (fails : String → Bool)
    (acc : List ToolApproval × List Event) (tc : ToolCall) :
    List ToolApproval × List Event :=
  if tc.isMcp then
    if fails tc.id then
      (acc.1, acc.2 ++ [Event.logApproveError tc.id])
    else
      (acc.1 ++ [⟨tc.id, true, headers⟩], acc.2)
  else acc

def buildApprovals (headers : List (String × String)) (fails : String → Bool)
    (calls : List ToolCall) : List ToolApproval × List Event :=
  calls.foldl (approveStep headers fails) ([], [])

/-- One poll-loop iteration body applied to a freshly fetched run `r`:
the `if run.status == "requires_action" and isinstance(run.required_action,
SubmitToolApprovalAction)` block.  Returns the emitted events and whether
the iteration executed `break`. -/
def processIteration (headers : List (String × String)) (fails : String → Bool)
    (r : Run) : List Event × Bool :=
  if r.status = "requires_action" then
    match r.required_action with
    | .submitToolApproval calls =>
      if calls.isEmpty then ([Event.cancelRun], true)
      else
        let built := buildApprovals headers fails calls
        (built.2 ++ (if built.1.isEmpty then [] else [Event.submitApprovals built.1]), false)
    | _ => ([], false)
  else ([], false)

/-- The poll loop.  `run` is the current run snapshot and `trace` the
successive results of `runs.get`.  Returns `none` when the trace is
exhausted while the loop condition still holds (the real loop would keep
polling), otherwise the emitted events and the run held when the loop
exits. -/
def pollLoop (headers : List (String × String)) (fails : String → Bool) :
    Run → List Run → Option (List Event × Run)
  | run, [] =>
    if run.status ∈ pollStates then none else some ([], run)
  | run, r :: rest =>
    if run.status ∈ pollStates then
      let step := processIteration headers fails r
      if step.2 then some (Event.getRun :: step.1, r)
      else
        match pollLoop headers fails r rest with
        | none => none
        | some (evs, fin) => some (Event.getRun :: (step.1 ++ evs), fin)
    else some ([], run)

/-! ### The CLI script as a whole (`main.py`) -/

/-- The SDK calls and console actions of `main.py` preceding the poll
loop, in program order (lines 51-106): client construction, header
configuration (or its warning), then agent, thread, message and run
creation. -/
def cliPre (env : Env) : List Event :=
  [Event.createClient] ++
  (if truthy (env.get "MCP_SERVER_TOKEN") then [Event.setAuthHeader]
   else [Event.warnNoToken]) ++
  [Event.createAgent, Event.createThread, Event.createMessage,
   Event.setApprovalMode, Event.createRun]

/-- The reports after the poll loop exits (`main.py` 143-145). -/
def cliPost (fin : Run) : List Event :=
  [Event.reportCompleted fin.status] ++
  (if fin.status = "failed" then
    [Event.reportFailed ("Run failed: " ++ lastErrorStr fin)]
   else [])

/-- The CLI program as an event trace.  `run0` is the run returned by
`runs.create` and `trace` the successive `runs.get` results.  A missing
required variable raises before any network action; otherwise the
startup actions run, then the poll loop, then the outcome reports.  The
second component is `none` when the given trace does not suffice for the
loop to exit. -/
def cliProgram (env : Env) (run0 : Run) (trace : List Run) (fails : String → Bool) :
    Except String (List Event × Option Run) :=
  if missing_vars env = [] then
    match pollLoop (mcpHeaders (env.get "MCP_SERVER_TOKEN")) fails run0 trace with
    | none => Except.ok (cliPre env, none)
    | some (evs, fin) => Except.ok (cliPre env ++ evs ++ cliPost fin, some fin)
  else Except.error (missingVarsMessage env)

/-! ### The chat variant (`mainchat.py`, `AzureAIAgentHandler.send_message`) -/

/-- One text segment of a thread message (`text_messages[i].text.value`). -/
structure TextBlock where
  value : String
deriving DecidableEq, Repr

/-- The fields of a thread message the chat handler reads. -/
structure ChatMsg where
  role : String
  text_messages : List TextBlock
deriving DecidableEq, Repr

/-- The `for msg in messages` scan at `mainchat.py` 164-169: return the
last text segment's value of the first message whose role is `assistant`
and which has at least one text segment, else the fixed fallback. -/
def extractResponse : List ChatMsg → String
  | [] => "No response received from agent."
  | m :: rest =>
    if m.role = "assistant" ∧ ¬m.text_messages.isEmpty then
      match m.text_messages.getLast? with
      | some t => t.value
      | none => extractResponse rest
    else extractResponse rest

/-- The behavior of the external service during one `send_message` call.
Each operation the handler performs may raise: a `some e` /
`Except.error e` models the SDK call raising an exception whose string
form is `e`. -/
structure ChatSvc where
  createMessageExc : Option String
  createRunRes : Except String Run
  getRunResults : List (Except String Run)
  cancelExc : Option String
  submitExc : Option String
  listMessagesRes : Except String (List ChatMsg)
deriving Repr

/-- The poll loop of `send_message` (`mainchat.py` 127-157): same body
as the CLI loop, but each service call may raise, and such an exception
escapes the loop (to be caught by the top-level `try`).  `Except.ok none`
means the given trace was exhausted with the loop condition still true. -/
def chatPollLoop (svc : ChatSvc) (headers : List (String × String))
    (fails : String → Bool) : Run → List (Except String Run) → Except String (Option Run)
  | run, [] =>
    if run.status ∈ pollStates then Except.ok none else Except.ok (some run)
  | run, g :: rest =>
    if run.status ∈ pollStates then
      match g with
      | .error e => Except.error e
      | .ok r =>
        let step := processIteration headers fails r
        match (if step.1.any Event.isCancel then svc.cancelExc
               else if step.1.any Event.isSubmit then svc.submitExc
               else none) with
        | some e => Except.error e
        | none =>
          if step.2 then Except.ok (some r)
          else chatPollLoop svc headers fails r rest
    else Except.ok (some run)

/-- The body of `send_message` inside its `try` block: create the message
and the run, poll, then either report the failed run or extract the
latest assistant response.  `Except.error e` is an exception escaping the
body; `Except.ok none` means the loop did not exit within the trace. -/
def sendMessageBody (svc : ChatSvc) (headers : List (String × String))
    (fails : String → Bool) : Except String (Option String) :=
  match svc.createMessageExc with
  | some e => Except.error e
  | none =>
    match svc.createRunRes with
    | .error e => Except.error e
    | .ok run0 =>
      match chatPollLoop svc headers fails run0 svc.getRunResults with
      | .error e => Except.error e
      | .ok none => Except.ok none
      | .ok (some fin) =>
        if fin.status = "failed" then
          Except.ok (some ("Error: Run failed - " ++ lastErrorStr fin))
        else
          match svc.listMessagesRes with
          | .error e => Except.error e
          | .ok msgs => Except.ok (some (extractResponse msgs))

/-- `send_message` with its top-level `try/except` (`mainchat.py`
109-172): any exception from the body becomes a returned error string.
`none` means the call did not return within the given trace. -/
def send_message (svc : ChatSvc) (headers : List (String × String))
    (fails : String → Bool) : Option String :=
  match sendMessageBody svc headers fails with
  | .error e => some ("Error processing message: " ++ e)
  | .ok r => r

/-! ### Concrete sample values used by witnesses -/

def runQueued : Run :=
  { status := "queued", required_action := RequiredAction.noAction, last_error := none }

def runCompleted : Run :=
  { status := "completed", required_action := RequiredAction.noAction, last_error := none }

def runFailed : Run :=
  { status := "failed", required_action := RequiredAction.noAction,
    last_error := some "Rate limit is exceeded." }

def runNeedsApproval (calls : List ToolCall) : Run :=
  { status := "requires_action", required_action := RequiredAction.submitToolApproval calls,
    last_error := none }

def envEmpty : Env := ⟨fun _ => none⟩

def envAll : Env := ⟨fun v => some v⟩

def envNoToken : Env := ⟨fun v => if v = "MCP_SERVER_TOKEN" then none else some v⟩

def envEmptyToken : Env := ⟨fun v => if v = "MCP_SERVER_TOKEN" then some "" else some v⟩

/-! ### Helper lemmas -/

theorem joinComma_substr : ∀ (l : List String) (v : String), v ∈ l →
    ∃ s₁ s₂, joinComma l = s₁ ++ v ++ s₂
  | [], _, h => by cases h
  | [x], v, h => by
    have hv : v = x := by simpa using h
    subst hv
    exact ⟨"", "", by simp [joinComma, String.empty_append, String.append_empty]⟩
  | x :: y :: xs, v, h => by
    rcases List.mem_cons.mp h with h1 | h2
    · subst h1
      exact ⟨"", ", " ++ joinComma (y :: xs),
        by simp [joinComma, String.empty_append, String.append_assoc]⟩
    · obtain ⟨s₁, s₂, hs⟩ := joinComma_substr (y :: xs) v h2
      exact ⟨x ++ ", " ++ s₁, s₂, by simp [joinComma, hs, String.append_assoc]⟩

theorem mem_missing_vars (env : Env) (v : String) (hv : v ∈ required_vars)
    (hf : truthy (env.get v) = false) : v ∈ missing_vars env :=
  List.mem_filter.mpr ⟨hv, by simp [hf]⟩

theorem foldl_approveStep (headers : List (String × String)) (fails : String → Bool) :
    ∀ (calls : List ToolCall) (a : List ToolApproval) (b : List Event),
    calls.foldl (approveStep headers fails) (a, b) =
      (a ++ calls.filterMap (fun c =>
          if c.isMcp && !fails c.id then some ⟨c.id, true, headers⟩ else none),
       b ++ calls.filterMap (fun c =>
          if c.isMcp && fails c.id then some (Event.logApproveError c.id) else none))
  | [], a, b => by simp
  | c :: cs, a, b => by
    by_cases hm : c.isMcp
    · by_cases hf : fails c.id
      · simp only [List.foldl_cons, approveStep, hm, hf, if_true, List.filterMap_cons,
          Bool.not_true, Bool.and_false, Bool.and_true]
        rw [foldl_approveStep headers fails cs]
        simp [List.append_assoc]
      · simp only [List.foldl_cons, approveStep, hm, hf, if_true, if_false,
          List.filterMap_cons, Bool.not_false, Bool.and_false, Bool.and_true]
        rw [foldl_approveStep headers fails cs]
        simp [List.append_assoc]
    · simp only [List.foldl_cons, approveStep, hm, if_false, List.filterMap_cons,
        Bool.false_and]
      rw [foldl_approveStep headers fails cs]
      simp

theorem buildApprovals_eq (headers : List (String × String)) (fails : String → Bool)
    (calls : List ToolCall) :
    buildApprovals headers fails calls =
      (calls.filterMap (fun c =>
          if c.isMcp && !fails c.id then some ⟨c.id, true, headers⟩ else none),
       calls.filterMap (fun c =>
          if c.isMcp && fails c.id then some (Event.logApproveError c.id) else none)) := by
  rw [buildApprovals, foldl_approveStep]
  simp

theorem processIteration_break (headers : List (String × String)) (fails : String → Bool)
    (r : Run) (evs : List Event)
    (hb : processIteration headers fails r = (evs, true)) :
    r.status = "requires_action" ∧
    r.required_action = RequiredAction.submitToolApproval [] ∧
    evs = [Event.cancelRun] := by
  by_cases hs : r.status = "requires_action"
  · rcases hra : r.required_action with calls | _ | _
    · by_cases hce : calls.isEmpty
      · have : calls = [] := List.isEmpty_iff.mp hce
        subst this
        simp [processIteration, hs, hra] at hb
        exact ⟨hs, rfl, hb.symm⟩
      · simp [processIteration, hs, hra, hce] at hb
    · simp [processIteration, hs, hra] at hb
    · simp [processIteration, hs, hra] at hb
  · simp [processIteration, hs] at hb

theorem processIteration_no_createRun (headers : List (String × String))
    (fails : String → Bool) (r : Run) :
    Event.createRun ∉ (processIteration headers fails r).1 := by
  by_cases hs : r.status = "requires_action"
  · rcases hra : r.required_action with calls | _ | _
    · by_cases hce : calls.isEmpty
      · simp [processIteration, hs, hra, hce]
      · intro hmem
        simp only [processIteration, hs, hra, hce, if_true, if_false, ite_false,
          buildApprovals_eq] at hmem
        rcases List.mem_append.mp hmem with h1 | h2
        · obtain ⟨c, _, hc⟩ := List.mem_filterMap.mp h1
          by_cases h : c.isMcp && fails c.id <;> simp [h] at hc
        · by_cases h : (processIteration headers fails r).1 = [] <;>
            simp_all
    · simp [processIteration, hs, hra]
    · simp [processIteration, hs, hra]
  · simp [processIteration, hs]

theorem pollLoop_no_createRun (headers : List (String × String)) (fails : String → Bool) :
    ∀ (trace : List Run) (run : Run) (evs : List Event) (fin : Run),
    pollLoop headers fails run trace = some (evs, fin) → Event.createRun ∉ evs
  | [], run, evs, fin => by
    by_cases hmem : run.status ∈ pollStates <;> intro h <;> simp [pollLoop, hmem] at h
    exact h.1 ▸ (by simp)
  | r :: rest, run, evs, fin => by
    intro h hmem
    by_cases hrun : run.status ∈ pollStates
    · rcases hb : processIteration headers fails r with ⟨evs0, brk⟩
      cases brk
      · rcases hrec : pollLoop headers fails r rest with _ | ⟨evs2, fin2⟩
        · simp [pollLoop, hrun, hb, hrec] at h
        · simp only [pollLoop, hrun, if_true, hb, hrec] at h
          have hpair : (Event.getRun :: (evs0 ++ evs2), fin2) = (evs, fin) := by
            simpa using h
          have he : evs = Event.getRun :: (evs0 ++ evs2) :=
            (congrArg Prod.fst hpair).symm
          rw [he] at hmem
          rcases List.mem_cons.mp hmem with h1 | h2
          · exact absurd h1 (by simp)
          · rcases List.mem_append.mp h2 with h3 | h4
            · exact processIteration_no_createRun headers fails r (hb ▸ h3)
            · exact pollLoop_no_createRun headers fails rest r evs2 fin2 hrec h4
      · simp only [pollLoop, hrun, if_true, hb] at h
        have hpair : (Event.getRun :: evs0, r) = (evs, fin) := by simpa using h
        have he : evs = Event.getRun :: evs0 :=
          (congrArg Prod.fst hpair).symm
        rw [he] at hmem
        rcases List.mem_cons.mp hmem with h1 | h2
        · exact absurd h1 (by simp)
        · have := processIteration_break headers fails r evs0 hb
          rw [this.2.2] at h2
          simp at h2
    · simp [pollLoop, hrun] at h
      exact absurd (h.1 ▸ hmem) (by simp)

theorem processIteration_loop_events (headers : List (String × String))
    (fails : String → Bool) (r : Run) :
    ∀ e ∈ (processIteration headers fails r).1, e.isLoopEvent = true := by
  intro e he
  by_cases hs : r.status = "requires_action"
  · rcases hra : r.required_action with calls | _ | _
    · by_cases hce : calls.isEmpty
      · simp [processIteration, hs, hra, hce] at he
        subst he
        rfl
      · simp only [processIteration, hs, hra, hce, if_true, if_false, ite_false] at he
        rcases List.mem_append.mp he with h1 | h2
        · rw [buildApprovals_eq] at h1
          obtain ⟨c, _, hc⟩ := List.mem_filterMap.mp h1
          by_cases h : c.isMcp && fails c.id <;> simp [h] at hc
          rw [← hc]
          rfl
        · by_cases hbe : (buildApprovals headers fails calls).1.isEmpty <;>
            simp [hbe] at h2
          rw [h2]
          rfl
    · simp [processIteration, hs, hra] at he
    · simp [processIteration, hs, hra] at he
  · simp [processIteration, hs] at he

theorem pollLoop_loop_events (headers : List (String × String)) (fails : String → Bool) :
    ∀ (trace : List Run) (run : Run) (evs : List Event) (fin : Run),
    pollLoop headers fails run trace = some (evs, fin) →
    ∀ e ∈ evs, e.isLoopEvent = true
  | [], run, evs, fin => by
    by_cases hmem : run.status ∈ pollStates <;> intro h <;>
      simp [pollLoop, hmem] at h
    intro e he
    rw [h.1] at he
    simp at he
  | r :: rest, run, evs, fin => by
    intro h e he
    by_cases hrun : run.status ∈ pollStates
    · rcases hb : processIteration headers fails r with ⟨evs0, brk⟩
      cases brk
      · rcases hrec : pollLoop headers fails r rest with _ | ⟨evs2, fin2⟩
        · simp [pollLoop, hrun, hb, hrec] at h
        · simp only [pollLoop, hrun, if_true, hb, hrec] at h
          have hpair : (Event.getRun :: (evs0 ++ evs2), fin2) = (evs, fin) := by
            simpa using h
          simp only [Prod.mk.injEq] at hpair
          rw [← hpair.1] at he
          rcases List.mem_cons.mp he with h1 | h2
          · rw [h1]
            rfl
          · rcases List.mem_append.mp h2 with h3 | h4
            · exact processIteration_loop_events headers fails r e (hb ▸ h3)
            · exact pollLoop_loop_events headers fails rest r evs2 fin2 hrec e h4
      · simp only [pollLoop, hrun, if_true, hb] at h
        have hpair : (Event.getRun :: evs0, r) = (evs, fin) := by simpa using h
        simp only [Prod.mk.injEq] at hpair
        rw [← hpair.1] at he
        rcases List.mem_cons.mp he with h1 | h2
        · rw [h1]
          rfl
        · exact processIteration_loop_events headers fails r e (hb ▸ h2)
    · simp [pollLoop, hrun] at h
      rw [h.1] at he
      simp at he

theorem loopEvent_not_createRun (e : Event) (h : e.isLoopEvent = true) :
    e.isCreateRun = false := by
  cases e <;> simp [Event.isLoopEvent, Event.isCreateRun] at *

theorem cliProgram_ok_elim (env : Env) (run0 : Run) (trace : List Run)
    (fails : String → Bool) (evs : List Event) (fin : Run)
    (hok : cliProgram env run0 trace fails = Except.ok (evs, some fin)) :
    missing_vars env = [] ∧
    ∃ evs2, pollLoop (mcpHeaders (env.get "MCP_SERVER_TOKEN")) fails run0 trace
        = some (evs2, fin) ∧
      evs = cliPre env ++ evs2 ++ cliPost fin := by
  by_cases hmv : missing_vars env = []
  · refine ⟨hmv, ?_⟩
    rcases hpl : pollLoop (mcpHeaders (env.get "MCP_SERVER_TOKEN")) fails run0 trace
      with _ | ⟨evs2, fin2⟩
    · simp [cliProgram, hmv, hpl] at hok
    · simp only [cliProgram, hmv, if_true, hpl, Except.ok.injEq, Prod.mk.injEq,
        Option.some.injEq] at hok
      obtain ⟨h1, h2⟩ := hok
      subst h2
      exact ⟨evs2, rfl, h1.symm⟩
  · simp [cliProgram, hmv] at hok

/-! ### Claim theorems -/

/-- C4: whenever at least one of the required environment variables
(PROJECT_ENDPOINT, MODEL_DEPLOYMENT_NAME, MCP_SERVER_URL,
MCP_SERVER_LABEL) is absent or empty, the CLI program raises the fatal
`ValueError` before any network action takes place (no events at all are
emitted), and the error message contains the name of every missing
required variable. -/
theorem env_check_fatal (env : Env) (run0 : Run) (trace : List Run)
    (fails : String → Bool)
    (h : ∃ v ∈ required_vars, truthy (env.get v) = false) :
    cliProgram env run0 trace fails = Except.error (missingVarsMessage env) ∧
    ∀ v ∈ required_vars, truthy (env.get v) = false →
      ∃ s₁ s₂, missingVarsMessage env = s₁ ++ v ++ s₂ := by
  have hne : missing_vars env ≠ [] := by
    obtain ⟨v, hv, hfv⟩ := h
    intro he
    exact absurd (he ▸ mem_missing_vars env v hv hfv) (List.not_mem_nil v)
  refine ⟨by simp [cliProgram, hne], ?_⟩
  intro v hv hfv
  obtain ⟨s₁, s₂, hs⟩ := joinComma_substr (missing_vars env) v
    (mem_missing_vars env v hv hfv)
  exact ⟨"Missing required environment variables: " ++ s₁, s₂,
    by rw [missingVarsMessage, hs]; simp [String.append_assoc]⟩

/-- Witness for C4 at the empty environment (every variable unset). -/
theorem env_check_fatal_witness :
    cliProgram envEmpty runQueued [] (fun _ => false)
        = Except.error (missingVarsMessage envEmpty) ∧
    ∀ v ∈ required_vars, truthy (envEmpty.get v) = false →
      ∃ s₁ s₂, missingVarsMessage envEmpty = s₁ ++ v ++ s₂ :=
  env_check_fatal envEmpty runQueued [] (fun _ => false)
    ⟨"PROJECT_ENDPOINT", by simp [required_vars], rfl⟩

/-- C2: in a poll-loop iteration where the fetched run is in
`requires_action` with a `SubmitToolApprovalAction` carrying zero tool
calls, the run is cancelled and the loop exits immediately: the loop
result is exactly the fetch plus the cancel, the fetched run is the
final run, and the remaining trace is never consulted. -/
theorem empty_tool_calls_cancel (headers : List (String × String))
    (fails : String → Bool) (run r : Run) (rest : List Run)
    (hrun : run.status ∈ pollStates)
    (hst : r.status = "requires_action")
    (ha : r.required_action = RequiredAction.submitToolApproval []) :
    pollLoop headers fails run (r :: rest)
      = some ([Event.getRun, Event.cancelRun], r) := by
  simp [pollLoop, hrun, processIteration, hst, ha]

/-- Witness for C2: a queued run whose next snapshot requires action with
an empty tool-call list. -/
theorem empty_tool_calls_cancel_witness :
    pollLoop [] (fun _ => false) runQueued [runNeedsApproval [], runCompleted]
      = some ([Event.getRun, Event.cancelRun], runNeedsApproval []) :=
  empty_tool_calls_cancel [] (fun _ => false) runQueued (runNeedsApproval [])
    [runCompleted] (by simp [runQueued, pollStates]) rfl rfl

theorem pollLoop_reaches_terminal (headers : List (String × String))
    (fails : String → Bool) :
    ∀ (trace : List Run) (run : Run), (∃ r ∈ trace, r.status ∉ pollStates) →
    ∃ evs fin, pollLoop headers fails run trace = some (evs, fin) ∧
      (fin.status ∉ pollStates ∨
       (fin.status = "requires_action" ∧
        fin.required_action = RequiredAction.submitToolApproval []))
  | [], _, h => by simp at h
  | r :: rest, run, h => by
    by_cases hrun : run.status ∈ pollStates
    · rcases hb : processIteration headers fails r with ⟨evs0, brk⟩
      cases brk
      · by_cases hr : r.status ∈ pollStates
        · have hrest : ∃ q ∈ rest, q.status ∉ pollStates := by
            obtain ⟨q, hq, hqs⟩ := h
            rcases List.mem_cons.mp hq with rfl | hq2
            · exact absurd hr hqs
            · exact ⟨q, hq2, hqs⟩
          obtain ⟨evs2, fin, hpl, hfin⟩ :=
            pollLoop_reaches_terminal headers fails rest r hrest
          exact ⟨Event.getRun :: (evs0 ++ evs2), fin,
            by simp [pollLoop, hrun, hb, hpl], hfin⟩
        · have hpl : pollLoop headers fails r rest = some ([], r) := by
            cases rest <;> simp [pollLoop, hr]
          exact ⟨Event.getRun :: (evs0 ++ []), r,
            by simp [pollLoop, hrun, hb, hpl], Or.inl hr⟩
      · obtain ⟨h1, h2, _⟩ := processIteration_break headers fails r evs0 hb
        exact ⟨Event.getRun :: evs0, r,
          by simp [pollLoop, hrun, hb], Or.inr ⟨h1, h2⟩⟩
    · exact ⟨[], run, by cases rest <;> simp [pollLoop, hrun], Or.inl hrun⟩

/-- C3: the poll loop keeps iterating exactly while the run status is one
of `queued`, `in_progress`, `requires_action` — if the current status is
outside that set the loop exits at once without touching the trace; if it
is inside the set and no further snapshot is available the loop is still
running; and as soon as some fetched snapshot has a status outside the
set the loop is guaranteed to terminate, exiting either on a status
outside the set or through the empty-tool-call cancel. -/
theorem poll_loop_termination (headers : List (String × String))
    (fails : String → Bool) (run : Run) (trace : List Run) :
    (run.status ∉ pollStates → pollLoop headers fails run trace = some ([], run)) ∧
    (run.status ∈ pollStates → pollLoop headers fails run [] = none) ∧
    ((∃ r ∈ trace, r.status ∉ pollStates) →
      ∃ evs fin, pollLoop headers fails run trace = some (evs, fin) ∧
        (fin.status ∉ pollStates ∨
         (fin.status = "requires_action" ∧
          fin.required_action = RequiredAction.submitToolApproval []))) := by
  refine ⟨fun h => ?_, fun h => by simp [pollLoop, h], ?_⟩
  · cases trace <;> simp [pollLoop, h]
  · exact pollLoop_reaches_terminal headers fails trace run

/-- Witness for C3: a queued run whose next snapshot is `completed`. -/
theorem poll_loop_termination_witness :
    ∃ evs fin, pollLoop [] (fun _ => false) runQueued [runCompleted] = some (evs, fin) ∧
      (fin.status ∉ pollStates ∨
       (fin.status = "requires_action" ∧
        fin.required_action = RequiredAction.submitToolApproval [])) :=
  (poll_loop_termination [] (fun _ => false) runQueued [runCompleted]).2.2
    ⟨runCompleted, by simp, by simp [runCompleted, pollStates]⟩

/-- C1 counterexample: a `requires_action` iteration whose non-empty
tool-call list holds one pending tool call that is not a
`RequiredMcpToolCall`.  The iteration builds no approval record at all
and performs no batch submission, so this pending tool call does not
receive an approval record, contradicting the claim that every pending
tool call receives exactly one. -/
theorem auto_approval_counterexample :
    processIteration [] (fun _ => false)
        (runNeedsApproval [ToolCall.other "call_1"]) = ([], false) := by
  decide

/-- C1 (amended): in a `requires_action` iteration with a non-empty
tool-call list, every pending tool call that is a `RequiredMcpToolCall`
and whose approval-record construction does not raise receives exactly
one approval record — `approve = true`, unconditionally, carrying the
previously configured authentication headers — and all these approvals
are submitted in a single batch submission; tool calls of other types
receive none. -/
theorem mcp_auto_approval (headers : List (String × String)) (fails : String → Bool)
    (r : Run) (calls : List ToolCall)
    (hst : r.status = "requires_action")
    (ha : r.required_action = RequiredAction.submitToolApproval calls)
    (hx : ∃ c ∈ calls, c.isMcp = true ∧ fails c.id = false) :
    (buildApprovals headers fails calls).1 =
      calls.filterMap (fun c =>
        if c.isMcp && !fails c.id then some ⟨c.id, true, headers⟩ else none) ∧
    (∀ a ∈ (buildApprovals headers fails calls).1,
      a.approve = true ∧ a.headers = headers) ∧
    (processIteration headers fails r).1.filter Event.isSubmit
      = [Event.submitApprovals (buildApprovals headers fails calls).1] ∧
    (processIteration headers fails r).2 = false := by
  obtain ⟨c, hc, hcm, hcf⟩ := hx
  have hchar := buildApprovals_eq headers fails calls
  have hfst : (buildApprovals headers fails calls).1 =
      calls.filterMap (fun c =>
        if c.isMcp && !fails c.id then some ⟨c.id, true, headers⟩ else none) := by
    rw [hchar]
  have hane : (buildApprovals headers fails calls).1 ≠ [] := by
    rw [hfst]
    intro hnil
    have : (⟨c.id, true, headers⟩ : ToolApproval) ∈
        calls.filterMap (fun c =>
          if c.isMcp && !fails c.id then some ⟨c.id, true, headers⟩ else none) :=
      List.mem_filterMap.mpr ⟨c, hc, by simp [hcm, hcf]⟩
    rw [hnil] at this
    exact absurd this (List.not_mem_nil _)
  have hcne : ¬calls.isEmpty := by
    intro hce
    rw [List.isEmpty_iff.mp hce] at hc
    exact absurd hc (List.not_mem_nil c)
  have hlogs : ∀ e ∈ (buildApprovals headers fails calls).2, Event.isSubmit e = false := by
    intro e he
    rw [hchar] at he
    obtain ⟨d, _, hd⟩ := List.mem_filterMap.mp he
    by_cases h : d.isMcp && fails d.id <;> simp [h] at hd
    rw [← hd]
    rfl
  refine ⟨hfst, ?_, ?_, ?_⟩
  · intro a hamem
    rw [hfst] at hamem
    obtain ⟨d, _, hd⟩ := List.mem_filterMap.mp hamem
    by_cases h : d.isMcp && !fails d.id <;> simp [h] at hd
    rw [← hd]
    exact ⟨rfl, rfl⟩
  · have hiter : (processIteration headers fails r).1 =
        (buildApprovals headers fails calls).2 ++
          [Event.submitApprovals (buildApprovals headers fails calls).1] := by
      simp [processIteration, hst, ha, hcne, hane]
    rw [hiter, List.filter_append]
    rw [List.filter_eq_nil_iff.mpr (by intro e he; simp [hlogs e he])]
    simp [Event.isSubmit]
  · simp [processIteration, hst, ha, hcne]

/-- Witness for C1 (amended) at a batch holding two MCP tool calls and
one tool call of another type. -/
theorem mcp_auto_approval_witness :
    (buildApprovals [("Authorization", "Bearer tok")] (fun _ => false)
        [ToolCall.mcp "call_1", ToolCall.other "x", ToolCall.mcp "call_2"]).1 =
      [ToolCall.mcp "call_1", ToolCall.other "x", ToolCall.mcp "call_2"].filterMap
        (fun c => if c.isMcp && !(fun _ => false) c.id then
          some ⟨c.id, true, [("Authorization", "Bearer tok")]⟩ else none) ∧
    (∀ a ∈ (buildApprovals [("Authorization", "Bearer tok")] (fun _ => false)
        [ToolCall.mcp "call_1", ToolCall.other "x", ToolCall.mcp "call_2"]).1,
      a.approve = true ∧ a.headers = [("Authorization", "Bearer tok")]) ∧
    (processIteration [("Authorization", "Bearer tok")] (fun _ => false)
        (runNeedsApproval
          [ToolCall.mcp "call_1", ToolCall.other "x", ToolCall.mcp "call_2"])).1.filter
        Event.isSubmit
      = [Event.submitApprovals
          (buildApprovals [("Authorization", "Bearer tok")] (fun _ => false)
            [ToolCall.mcp "call_1", ToolCall.other "x", ToolCall.mcp "call_2"]).1] ∧
    (processIteration [("Authorization", "Bearer tok")] (fun _ => false)
        (runNeedsApproval
          [ToolCall.mcp "call_1", ToolCall.other "x", ToolCall.mcp "call_2"])).2 = false :=
  mcp_auto_approval [("Authorization", "Bearer tok")] (fun _ => false)
    (runNeedsApproval [ToolCall.mcp "call_1", ToolCall.other "x", ToolCall.mcp "call_2"])
    [ToolCall.mcp "call_1", ToolCall.other "x", ToolCall.mcp "call_2"]
    rfl rfl ⟨ToolCall.mcp "call_1", by simp, rfl, rfl⟩

/-- C9: in a `requires_action` iteration with a non-empty tool-call list,
approval records are built only for tool calls that are
`RequiredMcpToolCall` instances; a batch submission event occurs exactly
when at least one approval record was built; and when no approval was
built the iteration does not break — the loop goes on polling the rest
of the trace. -/
theorem mcp_only_approvals (headers : List (String × String)) (fails : String → Bool)
    (run r : Run) (rest : List Run) (calls : List ToolCall)
    (hrun : run.status ∈ pollStates)
    (hst : r.status = "requires_action")
    (ha : r.required_action = RequiredAction.submitToolApproval calls)
    (hne : calls ≠ []) :
    (∀ a ∈ (buildApprovals headers fails calls).1,
      ∃ c ∈ calls, c.isMcp = true ∧ a.tool_call_id = c.id) ∧
    ((processIteration headers fails r).1.any Event.isSubmit
      = !(buildApprovals headers fails calls).1.isEmpty) ∧
    (processIteration headers fails r).2 = false ∧
    ((buildApprovals headers fails calls).1 = [] →
      pollLoop headers fails run (r :: rest)
        = Option.map
            (fun p => (Event.getRun :: ((buildApprovals headers fails calls).2 ++ p.1), p.2))
            (pollLoop headers fails r rest)) := by
  have hcne : calls.isEmpty = false := by
    cases calls with
    | nil => exact absurd rfl hne
    | cons c cs => rfl
  have hlogs : ∀ e ∈ (buildApprovals headers fails calls).2, Event.isSubmit e = false := by
    intro e he
    rw [buildApprovals_eq] at he
    obtain ⟨d, _, hd⟩ := List.mem_filterMap.mp he
    by_cases h : d.isMcp && fails d.id <;> simp [h] at hd
    rw [← hd]
    rfl
  refine ⟨?_, ?_, ?_, ?_⟩
  · intro a hamem
    rw [buildApprovals_eq] at hamem
    obtain ⟨c, hc, hcc⟩ := List.mem_filterMap.mp hamem
    by_cases h : c.isMcp && !fails c.id
    · refine ⟨c, hc, (Bool.and_elim_left h), ?_⟩
      simp [h] at hcc
      rw [← hcc]
    · simp [h] at hcc
  · by_cases hbe : (buildApprovals headers fails calls).1.isEmpty
    · have hiter : (processIteration headers fails r).1 =
          (buildApprovals headers fails calls).2 := by
        simp [processIteration, hst, ha, hcne, hbe]
      rw [hiter, hbe]
      simp only [Bool.not_true]
      rw [List.any_eq_false]
      intro e he
      simp [hlogs e he]
    · have hbe2 : (buildApprovals headers fails calls).1.isEmpty = false := by
        simp at hbe
        simp [hbe]
      have hiter : (processIteration headers fails r).1 =
          (buildApprovals headers fails calls).2 ++
            [Event.submitApprovals (buildApprovals headers fails calls).1] := by
        simp [processIteration, hst, ha, hcne, hbe2]
      rw [hiter, hbe2]
      simp [List.any_eq_true, Event.isSubmit]
  · simp [processIteration, hst, ha, hcne]
  · intro hnil
    have hiter : processIteration headers fails r =
        ((buildApprovals headers fails calls).2, false) := by
      simp [processIteration, hst, ha, hcne, hnil]
    cases hrec : pollLoop headers fails r rest <;>
      simp [pollLoop, hrun, hiter, hrec]

/-- Witness for C9: a `requires_action` snapshot whose single pending
tool call is not an MCP tool call; nothing is submitted and the loop
continues into the rest of the trace. -/
theorem mcp_only_approvals_witness :
    (∀ a ∈ (buildApprovals [] (fun _ => false) [ToolCall.other "n1"]).1,
      ∃ c ∈ [ToolCall.other "n1"], c.isMcp = true ∧ a.tool_call_id = c.id) ∧
    ((processIteration [] (fun _ => false)
        (runNeedsApproval [ToolCall.other "n1"])).1.any Event.isSubmit
      = !(buildApprovals [] (fun _ => false) [ToolCall.other "n1"]).1.isEmpty) ∧
    (processIteration [] (fun _ => false)
        (runNeedsApproval [ToolCall.other "n1"])).2 = false ∧
    ((buildApprovals [] (fun _ => false) [ToolCall.other "n1"]).1 = [] →
      pollLoop [] (fun _ => false) runQueued
          (runNeedsApproval [ToolCall.other "n1"] :: [runCompleted])
        = Option.map
            (fun p => (Event.getRun ::
              ((buildApprovals [] (fun _ => false) [ToolCall.other "n1"]).2 ++ p.1), p.2))
            (pollLoop [] (fun _ => false)
              (runNeedsApproval [ToolCall.other "n1"]) [runCompleted])) :=
  mcp_only_approvals [] (fun _ => false) runQueued
    (runNeedsApproval [ToolCall.other "n1"]) [runCompleted] [ToolCall.other "n1"]
    (by simp [runQueued, pollStates]) rfl rfl (by simp)

/-- C7: when building the approval record for some pending MCP tool call
raises, that failure is caught and logged for that call alone; every
other MCP tool call whose construction succeeds still gets its approval
record, the batch with those records is still submitted in the same
iteration, and the iteration does not break. -/
theorem approval_failure_isolated (headers : List (String × String))
    (fails : String → Bool) (r : Run) (calls : List ToolCall)
    (hst : r.status = "requires_action")
    (ha : r.required_action = RequiredAction.submitToolApproval calls)
    (hx : ∃ c ∈ calls, c.isMcp = true ∧ fails c.id = false) :
    (∀ c ∈ calls, c.isMcp = true → fails c.id = true →
      Event.logApproveError c.id ∈ (processIteration headers fails r).1) ∧
    (∀ c ∈ calls, c.isMcp = true → fails c.id = false →
      (⟨c.id, true, headers⟩ : ToolApproval) ∈ (buildApprovals headers fails calls).1) ∧
    Event.submitApprovals (buildApprovals headers fails calls).1
      ∈ (processIteration headers fails r).1 ∧
    (processIteration headers fails r).2 = false := by
  obtain ⟨c, hc, hcm, hcf⟩ := hx
  have hcne : calls.isEmpty = false := by
    cases calls with
    | nil => exact absurd hc (List.not_mem_nil c)
    | cons d ds => rfl
  have hgood : (⟨c.id, true, headers⟩ : ToolApproval)
      ∈ (buildApprovals headers fails calls).1 := by
    rw [buildApprovals_eq]
    exact List.mem_filterMap.mpr ⟨c, hc, by simp [hcm, hcf]⟩
  have hbe : (buildApprovals headers fails calls).1.isEmpty = false := by
    cases hev : (buildApprovals headers fails calls).1 with
    | nil => rw [hev] at hgood; exact absurd hgood (List.not_mem_nil _)
    | cons a as => rfl
  have hiter : (processIteration headers fails r).1 =
      (buildApprovals headers fails calls).2 ++
        [Event.submitApprovals (buildApprovals headers fails calls).1] := by
    simp [processIteration, hst, ha, hcne, hbe]
  refine ⟨?_, ?_, ?_, ?_⟩
  · intro d hd hdm hdf
    rw [hiter]
    refine List.mem_append.mpr (Or.inl ?_)
    rw [buildApprovals_eq]
    exact List.mem_filterMap.mpr ⟨d, hd, by simp [hdm, hdf]⟩
  · intro d hd hdm hdf
    rw [buildApprovals_eq]
    exact List.mem_filterMap.mpr ⟨d, hd, by simp [hdm, hdf]⟩
  · rw [hiter]
    exact List.mem_append.mpr (Or.inr (by simp))
  · simp [processIteration, hst, ha, hcne]

/-- Witness for C7: two MCP tool calls, the first of which fails to
build its approval record. -/
theorem approval_failure_isolated_witness :
    (∀ c ∈ [ToolCall.mcp "call_1", ToolCall.mcp "call_2"], c.isMcp = true →
      (fun i => i == "call_1") c.id = true →
      Event.logApproveError c.id ∈
        (processIteration [] (fun i => i == "call_1")
          (runNeedsApproval [ToolCall.mcp "call_1", ToolCall.mcp "call_2"])).1) ∧
    (∀ c ∈ [ToolCall.mcp "call_1", ToolCall.mcp "call_2"], c.isMcp = true →
      (fun i => i == "call_1") c.id = false →
      (⟨c.id, true, []⟩ : ToolApproval) ∈
        (buildApprovals [] (fun i => i == "call_1")
          [ToolCall.mcp "call_1", ToolCall.mcp "call_2"]).1) ∧
    Event.submitApprovals
        (buildApprovals [] (fun i => i == "call_1")
          [ToolCall.mcp "call_1", ToolCall.mcp "call_2"]).1
      ∈ (processIteration [] (fun i => i == "call_1")
          (runNeedsApproval [ToolCall.mcp "call_1", ToolCall.mcp "call_2"])).1 ∧
    (processIteration [] (fun i => i == "call_1")
      (runNeedsApproval [ToolCall.mcp "call_1", ToolCall.mcp "call_2"])).2 = false :=
  approval_failure_isolated [] (fun i => i == "call_1")
    (runNeedsApproval [ToolCall.mcp "call_1", ToolCall.mcp "call_2"])
    [ToolCall.mcp "call_1", ToolCall.mcp "call_2"] rfl rfl
    ⟨ToolCall.mcp "call_2", by simp, rfl, by decide⟩

/-- C5: whenever the run exits the loop with terminal status `failed`,
the CLI emits a report whose text embeds `run.last_error` verbatim
(`Run failed: <last_error>`), the chat variant returns
`Error: Run failed - <last_error>`, and in the whole CLI execution the
run-creation call happens exactly once — the failed run is never retried
or resumed. -/
theorem failed_run_reported (env : Env) (run0 : Run) (trace : List Run)
    (fails : String → Bool) (evs : List Event) (fin : Run)
    (hok : cliProgram env run0 trace fails = Except.ok (evs, some fin))
    (hfail : fin.status = "failed") :
    Event.reportFailed ("Run failed: " ++ lastErrorStr fin) ∈ evs ∧
    (evs.filter Event.isCreateRun).length = 1 ∧
    (∀ (svc : ChatSvc) (headers : List (String × String)) (fails2 : String → Bool)
        (run1 fin2 : Run),
      svc.createMessageExc = none →
      svc.createRunRes = Except.ok run1 →
      chatPollLoop svc headers fails2 run1 svc.getRunResults = Except.ok (some fin2) →
      fin2.status = "failed" →
      send_message svc headers fails2
        = some ("Error: Run failed - " ++ lastErrorStr fin2)) := by
  obtain ⟨hmv, evs2, hpl, hevs⟩ :=
    cliProgram_ok_elim env run0 trace fails evs fin hok
  refine ⟨?_, ?_, ?_⟩
  · rw [hevs]
    refine List.mem_append.mpr (Or.inr ?_)
    simp [cliPost, hfail]
  · rw [hevs, List.filter_append, List.filter_append, List.length_append,
      List.length_append]
    have h1 : ((cliPre env).filter Event.isCreateRun).length = 1 := by
      cases htk : truthy (env.get "MCP_SERVER_TOKEN") <;>
        simp [cliPre, htk, Event.isCreateRun]
    have h2 : evs2.filter Event.isCreateRun = [] := by
      refine List.filter_eq_nil_iff.mpr ?_
      intro e he
      have := pollLoop_loop_events (mcpHeaders (env.get "MCP_SERVER_TOKEN")) fails
        trace run0 evs2 fin hpl e he
      simp [loopEvent_not_createRun e this]
    have h3 : (cliPost fin).filter Event.isCreateRun = [] := by
      simp [cliPost, hfail, Event.isCreateRun]
    rw [h1, h2, h3]
    rfl
  · intro svc headers fails2 run1 fin2 hc hr hl hf
    simp [send_message, sendMessageBody, hc, hr, hl, hf]

/-- Witness for C5: a queued run whose next snapshot is `failed` with a
service-reported error text. -/
theorem failed_run_reported_witness :
    Event.reportFailed ("Run failed: " ++ lastErrorStr runFailed) ∈
      [Event.createClient, Event.setAuthHeader, Event.createAgent, Event.createThread,
       Event.createMessage, Event.setApprovalMode, Event.createRun, Event.getRun,
       Event.reportCompleted "failed",
       Event.reportFailed ("Run failed: " ++ lastErrorStr runFailed)] ∧
    ([Event.createClient, Event.setAuthHeader, Event.createAgent, Event.createThread,
      Event.createMessage, Event.setApprovalMode, Event.createRun, Event.getRun,
      Event.reportCompleted "failed",
      Event.reportFailed ("Run failed: " ++ lastErrorStr runFailed)].filter
        Event.isCreateRun).length = 1 ∧
    (∀ (svc : ChatSvc) (headers : List (String × String)) (fails2 : String → Bool)
        (run1 fin2 : Run),
      svc.createMessageExc = none →
      svc.createRunRes = Except.ok run1 →
      chatPollLoop svc headers fails2 run1 svc.getRunResults = Except.ok (some fin2) →
      fin2.status = "failed" →
      send_message svc headers fails2
        = some ("Error: Run failed - " ++ lastErrorStr fin2)) :=
  failed_run_reported envAll runQueued [runFailed] (fun _ => false)
    [Event.createClient, Event.setAuthHeader, Event.createAgent, Event.createThread,
     Event.createMessage, Event.setApprovalMode, Event.createRun, Event.getRun,
     Event.reportCompleted "failed",
     Event.reportFailed ("Run failed: " ++ lastErrorStr runFailed)]
    runFailed (by rfl) rfl

/-- C6: every exception raised during message handling inside
`send_message` (service-call failures anywhere in the body, including
inside the poll loop) is caught by the top-level handler and converted
into the returned string `Error processing message: <e>`; when the body
completes without an exception its value is returned unchanged.  In
particular `send_message` never propagates an exception: it is a total
function into strings. -/
theorem send_message_catches (svc : ChatSvc) (headers : List (String × String))
    (fails : String → Bool) :
    (∀ e, sendMessageBody svc headers fails = Except.error e →
      send_message svc headers fails = some ("Error processing message: " ++ e)) ∧
    (∀ e, svc.createMessageExc = some e →
      send_message svc headers fails = some ("Error processing message: " ++ e)) ∧
    (∀ e rest run1, svc.createMessageExc = none →
      svc.createRunRes = Except.ok run1 →
      run1.status ∈ pollStates →
      svc.getRunResults = Except.error e :: rest →
      send_message svc headers fails = some ("Error processing message: " ++ e)) ∧
    (∀ res, sendMessageBody svc headers fails = Except.ok res →
      send_message svc headers fails = res) := by
  refine ⟨?_, ?_, ?_, ?_⟩
  · intro e he
    simp [send_message, he]
  · intro e he
    simp [send_message, sendMessageBody, he]
  · intro e rest run1 hc hr hmem hg
    simp [send_message, sendMessageBody, hc, hr, hg, chatPollLoop, hmem]
  · intro res hres
    simp [send_message, hres]

/-- Witness for C6: a service whose `messages.create` call raises. -/
theorem send_message_catches_witness :
    send_message
        { createMessageExc := some "boom", createRunRes := Except.ok runQueued,
          getRunResults := [], cancelExc := none, submitExc := none,
          listMessagesRes := Except.ok [] } [] (fun _ => false)
      = some ("Error processing message: " ++ "boom") :=
  (send_message_catches
    { createMessageExc := some "boom", createRunRes := Except.ok runQueued,
      getRunResults := [], cancelExc := none, submitExc := none,
      listMessagesRes := Except.ok [] } [] (fun _ => false)).2.1 "boom" rfl

/-- C8 counterexample: an environment in which MCP_SERVER_TOKEN is set —
to the empty string.  The variable is present, yet no Authorization
header is configured and the no-token warning is emitted, contradicting
the claim that whenever the variable is set a `Bearer` header is
configured. -/
theorem token_header_counterexample :
    envEmptyToken.get "MCP_SERVER_TOKEN" = some "" ∧
    mcpHeaders (envEmptyToken.get "MCP_SERVER_TOKEN") = [] ∧
    cliProgram envEmptyToken runQueued [runCompleted] (fun _ => false)
      = Except.ok
          ([Event.createClient, Event.warnNoToken, Event.createAgent,
            Event.createThread, Event.createMessage, Event.setApprovalMode,
            Event.createRun, Event.getRun, Event.reportCompleted "completed"],
           some runCompleted) :=
  ⟨rfl, rfl, rfl⟩

/-- C8 (amended): with all required variables present, if
MCP_SERVER_TOKEN is set
and non-empty then the MCP tool carries the header
`Authorization: Bearer <token>`, no warning is emitted, and the header
configuration happens right after client construction — before the run
(or anything else) is created; if the token is absent or empty, the
warning is emitted, no Authorization header is configured, and the
program still proceeds to create the run unauthenticated. -/
theorem token_header_config (env : Env) (run0 : Run) (trace : List Run)
    (fails : String → Bool) (hmv : missing_vars env = []) :
    (∀ t, env.get "MCP_SERVER_TOKEN" = some t → t ≠ "" →
      mcpHeaders (env.get "MCP_SERVER_TOKEN") = [("Authorization", "Bearer " ++ t)] ∧
      ∃ evs res, cliProgram env run0 trace fails = Except.ok (evs, res) ∧
        Event.warnNoToken ∉ evs ∧
        ∃ l₂, evs = Event.createClient :: Event.setAuthHeader :: l₂ ∧
          Event.createRun ∈ l₂) ∧
    (truthy (env.get "MCP_SERVER_TOKEN") = false →
      mcpHeaders (env.get "MCP_SERVER_TOKEN") = [] ∧
      ∃ evs res, cliProgram env run0 trace fails = Except.ok (evs, res) ∧
        Event.setAuthHeader ∉ evs ∧ Event.warnNoToken ∈ evs ∧
        Event.createRun ∈ evs) := by
  constructor
  · intro t ht hne
    have hie : t.isEmpty = false :=
      Bool.eq_false_iff.mpr (fun h => hne ((String.isEmpty_iff t).mp h))
    have htk2 : truthy (some t) = true := by
      show (!t.isEmpty) = true
      rw [hie]
      rfl
    have htk : truthy (env.get "MCP_SERVER_TOKEN") = true := by rw [ht]; exact htk2
    refine ⟨by simp [mcpHeaders, ht, htk2], ?_⟩
    rcases hpl : pollLoop (mcpHeaders (env.get "MCP_SERVER_TOKEN")) fails run0 trace
      with _ | ⟨evs2, fin2⟩
    · refine ⟨cliPre env, none, by simp [cliProgram, hmv, hpl], ?_, ?_⟩
      · simp [cliPre, htk]
      · exact ⟨[Event.createAgent, Event.createThread, Event.createMessage,
          Event.setApprovalMode, Event.createRun], by simp [cliPre, htk], by simp⟩
    · refine ⟨cliPre env ++ evs2 ++ cliPost fin2, some fin2,
        by simp [cliProgram, hmv, hpl], ?_, ?_⟩
      · intro hmem
        rcases List.mem_append.mp hmem with h1 | h2
        · rcases List.mem_append.mp h1 with h3 | h4
          · simp [cliPre, htk] at h3
          · have := pollLoop_loop_events (mcpHeaders (env.get "MCP_SERVER_TOKEN"))
              fails trace run0 evs2 fin2 hpl _ h4
            simp [Event.isLoopEvent] at this
        · by_cases hf : fin2.status = "failed" <;> simp [cliPost, hf] at h2
      · refine ⟨[Event.createAgent, Event.createThread, Event.createMessage,
          Event.setApprovalMode, Event.createRun] ++ evs2 ++ cliPost fin2, ?_, by simp⟩
        simp [cliPre, htk]
  · intro htk
    refine ⟨by simp [mcpHeaders, htk], ?_⟩
    rcases hpl : pollLoop (mcpHeaders (env.get "MCP_SERVER_TOKEN")) fails run0 trace
      with _ | ⟨evs2, fin2⟩
    · refine ⟨cliPre env, none, by simp [cliProgram, hmv, hpl], ?_, ?_, ?_⟩
      · simp [cliPre, htk]
      · simp [cliPre, htk]
      · simp [cliPre, htk]
    · refine ⟨cliPre env ++ evs2 ++ cliPost fin2, some fin2,
        by simp [cliProgram, hmv, hpl], ?_, ?_, ?_⟩
      · intro hmem
        rcases List.mem_append.mp hmem with h1 | h2
        · rcases List.mem_append.mp h1 with h3 | h4
          · simp [cliPre, htk] at h3
          · have := pollLoop_loop_events (mcpHeaders (env.get "MCP_SERVER_TOKEN"))
              fails trace run0 evs2 fin2 hpl _ h4
            simp [Event.isLoopEvent] at this
        · by_cases hf : fin2.status = "failed" <;> simp [cliPost, hf] at h2
      · refine List.mem_append.mpr (Or.inl (List.mem_append.mpr (Or.inl ?_)))
        simp [cliPre, htk]
      · refine List.mem_append.mpr (Or.inl (List.mem_append.mpr (Or.inl ?_)))
        simp [cliPre, htk]

/-- Witness for C8 (amended) at an environment holding every variable,
the token set to a non-empty string. -/
theorem token_header_config_witness :
    mcpHeaders (envAll.get "MCP_SERVER_TOKEN")
      = [("Authorization", "Bearer " ++ "MCP_SERVER_TOKEN")] ∧
    ∃ evs res, cliProgram envAll runQueued [runCompleted] (fun _ => false)
        = Except.ok (evs, res) ∧
      Event.warnNoToken ∉ evs ∧
      ∃ l₂, evs = Event.createClient :: Event.setAuthHeader :: l₂ ∧
        Event.createRun ∈ l₂ :=
  (token_header_config envAll runQueued [runCompleted] (fun _ => false)
    (by rfl)).1 "MCP_SERVER_TOKEN" rfl (by decide)

theorem extractResponse_find : ∀ msgs : List ChatMsg,
    extractResponse msgs =
      (match msgs.find? (fun m => m.role == "assistant" && !m.text_messages.isEmpty) with
       | some m => ((m.text_messages.getLast?).map TextBlock.value).getD
           "No response received from agent."
       | none => "No response received from agent.")
  | [] => rfl
  | m :: rest => by
    by_cases hcond : (m.role == "assistant" && !m.text_messages.isEmpty) = true
    · have hsplit := hcond
      simp only [Bool.and_eq_true, beq_iff_eq, Bool.not_eq_true'] at hsplit
      obtain ⟨hrole, hemp⟩ := hsplit
      rcases hgl : m.text_messages.getLast? with _ | t
      · rw [List.getLast?_eq_none_iff.mp hgl] at hemp
        simp at hemp
      · simp [extractResponse, hrole, hemp, List.find?_cons, hcond, hgl]
    · have hsplit := hcond
      simp only [Bool.and_eq_true, beq_iff_eq, Bool.not_eq_true', not_and] at hsplit
      have hfind : (m :: rest).find?
          (fun m => m.role == "assistant" && !m.text_messages.isEmpty)
          = rest.find? (fun m => m.role == "assistant" && !m.text_messages.isEmpty) := by
        simp only [List.find?_cons]
        rw [Bool.eq_false_iff.mpr hcond]
      have hite : extractResponse (m :: rest) = extractResponse rest := by
        by_cases hrole : m.role = "assistant"
        · have hemp : m.text_messages.isEmpty = true := by
            cases he : m.text_messages.isEmpty
            · exact absurd he (by simpa [hrole] using hcond)
            · rfl
          simp [extractResponse, hrole, hemp]
        · simp [extractResponse, hrole]
      rw [hite, hfind, extractResponse_find rest]

/-- C10: in the chat variant, once the poll loop has exited with a run
whose status is not `failed`, `send_message` returns the value of the
last text segment of the first message in the thread listing whose role
is `assistant` and which has at least one text segment; when no such
message exists it returns the fixed string
`No response received from agent.`. -/
theorem assistant_response_extraction (svc : ChatSvc)
    (headers : List (String × String)) (fails : String → Bool)
    (run1 fin : Run) (msgs : List ChatMsg)
    (h1 : svc.createMessageExc = none)
    (h2 : svc.createRunRes = Except.ok run1)
    (h3 : chatPollLoop svc headers fails run1 svc.getRunResults = Except.ok (some fin))
    (h4 : fin.status ≠ "failed")
    (h5 : svc.listMessagesRes = Except.ok msgs) :
    send_message svc headers fails = some (extractResponse msgs) ∧
    extractResponse msgs =
      (match msgs.find? (fun m => m.role == "assistant" && !m.text_messages.isEmpty) with
       | some m => ((m.text_messages.getLast?).map TextBlock.value).getD
           "No response received from agent."
       | none => "No response received from agent.") := by
  refine ⟨?_, extractResponse_find msgs⟩
  simp [send_message, sendMessageBody, h1, h2, h3, h4, h5]

/-- Witness for C10: a completed run and a thread listing holding a user
message and an assistant message with two text segments. -/
theorem assistant_response_extraction_witness :
    send_message
        { createMessageExc := none, createRunRes := Except.ok runQueued,
          getRunResults := [Except.ok runCompleted], cancelExc := none,
          submitExc := none,
          listMessagesRes := Except.ok
            [{ role := "user", text_messages := [⟨"hola"⟩] },
             { role := "assistant", text_messages := [⟨"first"⟩, ⟨"second"⟩] }] }
        [] (fun _ => false)
      = some (extractResponse
          [{ role := "user", text_messages := [⟨"hola"⟩] },
           { role := "assistant", text_messages := [⟨"first"⟩, ⟨"second"⟩] }]) ∧
    extractResponse
        [{ role := "user", text_messages := [⟨"hola"⟩] },
         { role := "assistant", text_messages := [⟨"first"⟩, ⟨"second"⟩] }] =
      (match ([{ role := "user", text_messages := [⟨"hola"⟩] },
               { role := "assistant", text_messages := [⟨"first"⟩, ⟨"second"⟩] }]
               : List ChatMsg).find?
          (fun m => m.role == "assistant" && !m.text_messages.isEmpty) with
       | some m => ((m.text_messages.getLast?).map TextBlock.value).getD
           "No response received from agent."
       | none => "No response received from agent.") :=
  assistant_response_extraction
    { createMessageExc := none, createRunRes := Except.ok runQueued,
      getRunResults := [Except.ok runCompleted], cancelExc := none,
      submitExc := none,
      listMessagesRes := Except.ok
        [{ role := "user", text_messages := [⟨"hola"⟩] },
         { role := "assistant", text_messages := [⟨"first"⟩, ⟨"second"⟩] }] }
    [] (fun _ => false) runQueued runCompleted
    [{ role := "user", text_messages := [⟨"hola"⟩] },
     { role := "assistant", text_messages := [⟨"first"⟩, ⟨"second"⟩] }]
    rfl rfl (by rfl) (by decide) rfl

end McpAgent
